import Mathlib

/-!
# gowebsocket: a callback-driven WebSocket client wrapper

Shallow embedding of `gowebsocket.go`.  The socket object, the pointees of its
pointer fields (dialer, the two mutexes, the connections returned by `Dial`)
and the observable effects (transport calls, lock operations, callback
invocations, log lines) are explicit components of a `World`.  Every answer of
the transport (dial result, write result, read result, result of a built-in
control-frame handler) is an argument of the operation that consumes it.

Each public operation and each iteration of the read loop is one atomic
transition; user callbacks are recorded with the snapshot `*socket` they
receive and do not act on the socket themselves.
-/

namespace gowebsocket

/-! ## Go values -/

/-- Go `[]byte`: the list of byte values. -/
abbrev Bytes := List Nat

/-- Go `string`: an immutable sequence of bytes. -/
structure GoString where
  bytes : List Nat
deriving DecidableEq, Repr

/-- Go `error` value (non-nil); `msg` is what `Error()` returns.  A nilable
`error` is an `Option GoError`. -/
structure GoError where
  msg : GoString
deriving DecidableEq, Repr

/-- Conversion `string(message)`: the string holding exactly the bytes of the slice. -/
def stringOfBytes (message : Bytes) : GoString := ⟨message⟩

/-- Conversion `[]byte(message)`: the bytes of the string. -/
def bytesOfString (message : GoString) : Bytes := message.bytes

/-- Go `errors.New(text)`. -/
def errorsNew (text : GoString) : GoError := ⟨text⟩

/-! ## Transport library constants -/

/-- Modelled from the spec: the transport library's frame kind of a text data
frame (`websocket.TextMessage`), absent from src; RFC 6455 opcode 1. -/
def TextMessage : Int := 1

/-- Modelled from the spec: the transport library's frame kind of a binary data
frame (`websocket.BinaryMessage`), absent from src; RFC 6455 opcode 2. -/
def BinaryMessage : Int := 2

/-- Modelled from the spec: the transport library's frame kind of a close
control frame (`websocket.CloseMessage`), absent from src; RFC 6455 opcode 8. -/
def CloseMessage : Int := 8

/-- Modelled from the spec: the transport library's normal-closure status code
(`websocket.CloseNormalClosure`), absent from src; RFC 6455 code 1000. -/
def CloseNormalClosure : Int := 1000

/-- Modelled from the spec: the transport library's "no status received" code
(`websocket.CloseNoStatusReceived`), absent from src; RFC 6455 code 1005. -/
def CloseNoStatusReceived : Int := 1005

/-- Modelled from the spec: the transport library's close-payload encoder
(`websocket.FormatCloseMessage`), absent from src: the status code as two
big-endian bytes followed by the bytes of the reason text; the payload is empty
for the code that may not be sent. -/
def FormatCloseMessage (closeCode : Int) (text : GoString) : Bytes :=
  if closeCode = CloseNoStatusReceived then []
  else
    let u := (closeCode % 65536).toNat
    [u / 256, u % 256] ++ text.bytes

/-! ## Data model -/

/-- The `ConnectionOptions` struct.  `proxy` is a function value, represented
by an identifier; `none` is the nil function. -/
structure ConnectionOptions where
  useCompression : Bool
  useSSL : Bool
  proxy : Option Nat
  subprotocols : List GoString
deriving DecidableEq, Repr

/-- The fields of `tls.Config` that the program sets. -/
structure TLSConfig where
  InsecureSkipVerify : Bool
deriving DecidableEq, Repr

/-- The fields of `websocket.Dialer` that the program sets. -/
structure Dialer where
  EnableCompression : Bool
  TLSClientConfig : Option TLSConfig
  Proxy : Option Nat
  Subprotocols : List GoString
deriving DecidableEq, Repr

/-- The `Socket` struct.  `Conn` is the transport handle (`none` is the nil
pointer, `some c` points to connection `c` of the world).  A callback field is
`true` when a function is registered and `false` when it is nil.  The pointer
fields `WebsocketDialer`, `sendMu` and `receiveMu` are set once by `New` and
never reassigned; their pointees are components of `World`. -/
structure Socket where
  Conn : Option Nat
  Url : GoString
  ConnectionOptions : ConnectionOptions
  RequestHeader : List (GoString × List GoString)
  OnConnected : Bool
  OnTextMessage : Bool
  OnBinaryMessage : Bool
  OnConnectError : Bool
  OnDisconnected : Bool
  OnPingReceived : Bool
  OnPongReceived : Bool
  IsConnected : Bool
deriving DecidableEq, Repr

/-- A control-frame handler stored in a connection: the transport's built-in
handler, or the closure installed by `Connect`, which captures the handler that
was installed before it. -/
inductive Handler where
  | builtin : Handler
  | wrapper (previous : Handler) : Handler
deriving DecidableEq, Repr

/-- The handler fields of a `websocket.Conn`. -/
structure ConnState where
  handlePing : Handler
  handlePong : Handler
  handleClose : Handler
deriving DecidableEq, Repr

/-- What `Dialer.Dial` answers: a new connection, or an error (and then a nil
connection). -/
inductive DialResult where
  | ok : DialResult
  | fail (err : GoError) : DialResult
deriving DecidableEq, Repr

/-- What `Conn.ReadMessage` returns. -/
structure ReadResult where
  messageType : Int
  message : Bytes
  err : Option GoError
deriving DecidableEq, Repr

/-- Observable effects, in the order in which they happen. -/
inductive Event where
  | dial (url : GoString) (header : List (GoString × List GoString))
  | lockSend
  | unlockSend
  | lockReceive
  | unlockReceive
  | write (conn : Nat) (messageType : Int) (data : Bytes) (result : Option GoError)
  | read (conn : Nat) (result : ReadResult)
  | connClose (conn : Nat)
  | setPingHandler (conn : Nat)
  | setPongHandler (conn : Nat)
  | setCloseHandler (conn : Nat)
  | spawnReadLoop
  | defaultPing (conn : Nat) (appData : GoString)
  | defaultPong (conn : Nat) (appData : GoString)
  | defaultClose (conn : Nat) (code : Int) (text : GoString)
  | onConnected (socket : Socket)
  | onTextMessage (message : GoString) (socket : Socket)
  | onBinaryMessage (data : Bytes) (socket : Socket)
  | onConnectError (err : GoError) (socket : Socket)
  | onDisconnected (err : Option GoError) (socket : Socket)
  | onPingReceived (data : GoString) (socket : Socket)
  | onPongReceived (data : GoString) (socket : Socket)
deriving DecidableEq, Repr

/-- Lines written with the `log` package. -/
inductive LogLine where
  | read (err : GoError)
  | recv (message : Bytes)
  | write (err : GoError)
  | writeClose (err : GoError)
deriving DecidableEq, Repr

/-- The socket together with everything it points to and the effects so far.
`sendMu` and `receiveMu` are `true` while the mutex is held; `conns` holds the
connections that `Dial` has returned; `readLoops` counts the read-loop
goroutines that have not returned. -/
structure World where
  socket : Socket
  dialer : Dialer
  sendMu : Bool
  receiveMu : Bool
  conns : List ConnState
  readLoops : Nat
  trace : List Event
  log : List LogLine
deriving DecidableEq, Repr

/-- Ways in which a transition does not complete: a method call through a nil
`Conn`, a `Lock` of a mutex that is held, or a transport event that nothing is
there to receive. -/
inductive Fault where
  | nilDeref
  | blocked
  | notEnabled
deriving DecidableEq, Repr

/-- Append one effect to the trace. -/
def World.emit (w : World) (e : Event) : World :=
  { w with trace := w.trace ++ [e] }

/-- Append one line to the log. -/
def World.logLine (w : World) (l : LogLine) : World :=
  { w with log := w.log ++ [l] }

/-! ## Operations -/

/-- The constructor `New`: the returned struct value. -/
def New (url : GoString) : Socket :=
  { Conn := none
    Url := url
    ConnectionOptions :=
      { useCompression := false, useSSL := true, proxy := none, subprotocols := [] }
    RequestHeader := []
    OnConnected := false
    OnTextMessage := false
    OnBinaryMessage := false
    OnConnectError := false
    OnDisconnected := false
    OnPingReceived := false
    OnPongReceived := false
    IsConnected := false }

/-- The world right after `New`: the socket value (possibly with callbacks and
options assigned by the caller), the fresh `&websocket.Dialer{}`, two fresh
unlocked mutexes, no connection, no goroutine, no effect yet. -/
def World.fresh (s : Socket) : World :=
  { socket := s
    dialer := { EnableCompression := false, TLSClientConfig := none, Proxy := none,
                Subprotocols := [] }
    sendMu := false
    receiveMu := false
    conns := []
    readLoops := 0
    trace := []
    log := [] }

/-- Method `setConnectionOptions`. -/
def setConnectionOptions (w : World) : World :=
  { w with dialer :=
      { EnableCompression := w.socket.ConnectionOptions.useCompression
        TLSClientConfig := some ⟨w.socket.ConnectionOptions.useSSL⟩
        Proxy := w.socket.ConnectionOptions.proxy
        Subprotocols := w.socket.ConnectionOptions.subprotocols } }

/-- The connection that a successful `Dial` returns: its handlers are the
transport's built-in ones. -/
def ConnState.dialed : ConnState :=
  { handlePing := Handler.builtin, handlePong := Handler.builtin,
    handleClose := Handler.builtin }

/-- The three `Set...Handler` calls of `Connect` on connection `c`: each reads
the handler that is installed and installs a closure around it.  `Connect`
calls this on the connection that `Dial` has just returned, which is in the
world, so the lookup finds it. -/
def installHandlers (c : Nat) (w : World) : World :=
  match w.conns[c]? with
  | none => w
  | some conn =>
    let defaultPingHandler := conn.handlePing
    let conn := { conn with handlePing := Handler.wrapper defaultPingHandler }
    let w := w.emit (Event.setPingHandler c)
    let defaultPongHandler := conn.handlePong
    let conn := { conn with handlePong := Handler.wrapper defaultPongHandler }
    let w := w.emit (Event.setPongHandler c)
    let defaultCloseHandler := conn.handleClose
    let conn := { conn with handleClose := Handler.wrapper defaultCloseHandler }
    let w := w.emit (Event.setCloseHandler c)
    { w with conns := w.conns.set c conn }

/-- Method `Connect`, given the answer of `Dial`. -/
def Connect (dial : DialResult) (w : World) : World :=
  let w := setConnectionOptions w
  let w := w.emit (Event.dial w.socket.Url w.socket.RequestHeader)
  match dial with
  | DialResult.fail err =>
    let w := { w with socket := { w.socket with Conn := none } }
    let w := { w with socket := { w.socket with IsConnected := false } }
    if w.socket.OnConnectError then w.emit (Event.onConnectError err w.socket) else w
  | DialResult.ok =>
    let c := w.conns.length
    let w := { w with conns := w.conns ++ [ConnState.dialed],
                      socket := { w.socket with Conn := some c } }
    let w :=
      if w.socket.OnConnected then
        let w := { w with socket := { w.socket with IsConnected := true } }
        w.emit (Event.onConnected w.socket)
      else w
    let w := installHandlers c w
    let w := { w with readLoops := w.readLoops + 1 }
    w.emit Event.spawnReadLoop

/-- Method `send`, given the answer of `WriteMessage`. -/
def send (messageType : Int) (data : Bytes) (result : Option GoError) (w : World) :
    Except Fault (World × Option GoError) :=
  if w.sendMu then Except.error Fault.blocked
  else
    let w := { w with sendMu := true }
    let w := w.emit Event.lockSend
    match w.socket.Conn with
    | none => Except.error Fault.nilDeref
    | some c =>
      let w := w.emit (Event.write c messageType data result)
      let err := result
      let w := { w with sendMu := false }
      let w := w.emit Event.unlockSend
      Except.ok (w, err)

/-- Method `SendText`. -/
def SendText (message : GoString) (result : Option GoError) (w : World) : Except Fault World :=
  match send TextMessage (bytesOfString message) result w with
  | Except.error f => Except.error f
  | Except.ok (w, err) =>
    match err with
    | some e => Except.ok (w.logLine (LogLine.write e))
    | none => Except.ok w

/-- Method `SendBinary`. -/
def SendBinary (data : Bytes) (result : Option GoError) (w : World) : Except Fault World :=
  match send BinaryMessage data result w with
  | Except.error f => Except.error f
  | Except.ok (w, err) =>
    match err with
    | some e => Except.ok (w.logLine (LogLine.write e))
    | none => Except.ok w

/-- Method `Close`, given the answer of the close frame's `WriteMessage`. -/
def Close (result : Option GoError) (w : World) : Except Fault World :=
  match send CloseMessage (FormatCloseMessage CloseNormalClosure ⟨[]⟩) result w with
  | Except.error f => Except.error f
  | Except.ok (w, err) =>
    let w := match err with
      | some e => w.logLine (LogLine.writeClose e)
      | none => w
    match w.socket.Conn with
    | none => Except.error Fault.nilDeref
    | some c =>
      let w := w.emit (Event.connClose c)
      if w.socket.OnDisconnected then
        let w := { w with socket := { w.socket with IsConnected := false } }
        Except.ok (w.emit (Event.onDisconnected err w.socket))
      else Except.ok w

/-- Whether a goroutine keeps looping or has returned. -/
inductive LoopStatus where
  | reading
  | returned
deriving DecidableEq, Repr

/-- One iteration of the read loop started by `Connect`, given the answer of
`ReadMessage`. -/
def readIteration (r : ReadResult) (w : World) : Except Fault (World × LoopStatus) :=
  if w.receiveMu then Except.error Fault.blocked
  else
    let w := { w with receiveMu := true }
    let w := w.emit Event.lockReceive
    match w.socket.Conn with
    | none => Except.error Fault.nilDeref
    | some c =>
      let w := w.emit (Event.read c r)
      let w := { w with receiveMu := false }
      let w := w.emit Event.unlockReceive
      match r.err with
      | some err =>
        let w := w.logLine (LogLine.read err)
        Except.ok ({ w with readLoops := w.readLoops - 1 }, LoopStatus.returned)
      | none =>
        let w := w.logLine (LogLine.recv r.message)
        if r.messageType = TextMessage then
          if w.socket.OnTextMessage then
            Except.ok (w.emit (Event.onTextMessage (stringOfBytes r.message) w.socket),
              LoopStatus.reading)
          else Except.ok (w, LoopStatus.reading)
        else if r.messageType = BinaryMessage then
          if w.socket.OnBinaryMessage then
            Except.ok (w.emit (Event.onBinaryMessage r.message w.socket), LoopStatus.reading)
          else Except.ok (w, LoopStatus.reading)
        else Except.ok (w, LoopStatus.reading)

/-- The read loop, run against the successive answers of `ReadMessage`.  When
the answers are used up the goroutine is waiting for the transport. -/
def readLoop : List ReadResult → World → Except Fault (World × LoopStatus)
  | [], w => Except.ok (w, LoopStatus.reading)
  | r :: rs, w =>
    match readIteration r w with
    | Except.error f => Except.error f
    | Except.ok (w, LoopStatus.returned) => Except.ok (w, LoopStatus.returned)
    | Except.ok (w, LoopStatus.reading) => readLoop rs w

/-- Run a ping handler of connection `c` on payload `appData`; `result` is what
the built-in handler returns. -/
def runPingHandler (c : Nat) (appData : GoString) (result : Option GoError) :
    Handler → World → World × Option GoError
  | Handler.builtin, w => (w.emit (Event.defaultPing c appData), result)
  | Handler.wrapper defaultPingHandler, w =>
    let w := if w.socket.OnPingReceived then w.emit (Event.onPingReceived appData w.socket) else w
    runPingHandler c appData result defaultPingHandler w

/-- Run a pong handler of connection `c` on payload `appData`. -/
def runPongHandler (c : Nat) (appData : GoString) (result : Option GoError) :
    Handler → World → World × Option GoError
  | Handler.builtin, w => (w.emit (Event.defaultPong c appData), result)
  | Handler.wrapper defaultPongHandler, w =>
    let w := if w.socket.OnPongReceived then w.emit (Event.onPongReceived appData w.socket) else w
    runPongHandler c appData result defaultPongHandler w

/-- Run a close handler of connection `c` on a close frame `(code, text)`. -/
def runCloseHandler (c : Nat) (code : Int) (text : GoString) (result : Option GoError) :
    Handler → World → World × Option GoError
  | Handler.builtin, w => (w.emit (Event.defaultClose c code text), result)
  | Handler.wrapper defaultCloseHandler, w =>
    let (w, result) := runCloseHandler c code text result defaultCloseHandler w
    if w.socket.OnDisconnected then
      let w := { w with socket := { w.socket with IsConnected := false } }
      (w.emit (Event.onDisconnected (some (errorsNew text)) w.socket), result)
    else (w, result)

/-- The transport reports a ping frame on connection `c`: it calls the ping
handler stored in that connection. -/
def pingReceived (c : Nat) (appData : GoString) (result : Option GoError) (w : World) :
    Except Fault (World × Option GoError) :=
  match w.conns[c]? with
  | none => Except.error Fault.notEnabled
  | some cs => Except.ok (runPingHandler c appData result cs.handlePing w)

/-- The transport reports a pong frame on connection `c`. -/
def pongReceived (c : Nat) (appData : GoString) (result : Option GoError) (w : World) :
    Except Fault (World × Option GoError) :=
  match w.conns[c]? with
  | none => Except.error Fault.notEnabled
  | some cs => Except.ok (runPongHandler c appData result cs.handlePong w)

/-- The transport reports a close frame on connection `c`. -/
def closeReceived (c : Nat) (code : Int) (text : GoString) (result : Option GoError)
    (w : World) : Except Fault (World × Option GoError) :=
  match w.conns[c]? with
  | none => Except.error Fault.notEnabled
  | some cs => Except.ok (runCloseHandler c code text result cs.handleClose w)

/-! ## The socket as a state machine -/

/-- One transition of the system: a call of a public method by the user, one
iteration of a read loop, or a control frame reported by the transport on a
connection.  Each carries the answer that the transport gives to it. -/
inductive Step where
  | connect (dial : DialResult)
  | sendText (message : GoString) (result : Option GoError)
  | sendBinary (data : Bytes) (result : Option GoError)
  | close (result : Option GoError)
  | read (r : ReadResult)
  | ping (c : Nat) (appData : GoString) (result : Option GoError)
  | pong (c : Nat) (appData : GoString) (result : Option GoError)
  | closeFrame (c : Nat) (code : Int) (text : GoString) (result : Option GoError)
deriving DecidableEq, Repr

/-- Perform one transition.  Inbound events need a read-loop goroutine that
has not returned, since the transport delivers them inside `ReadMessage`. -/
def step : Step → World → Except Fault World
  | Step.connect dial, w => Except.ok (Connect dial w)
  | Step.sendText message result, w => SendText message result w
  | Step.sendBinary data result, w => SendBinary data result w
  | Step.close result, w => Close result w
  | Step.read r, w =>
    if w.readLoops = 0 then Except.error Fault.notEnabled
    else match readIteration r w with
      | Except.error f => Except.error f
      | Except.ok (w, _) => Except.ok w
  | Step.ping c appData result, w =>
    if w.readLoops = 0 then Except.error Fault.notEnabled
    else match pingReceived c appData result w with
      | Except.error f => Except.error f
      | Except.ok (w, _) => Except.ok w
  | Step.pong c appData result, w =>
    if w.readLoops = 0 then Except.error Fault.notEnabled
    else match pongReceived c appData result w with
      | Except.error f => Except.error f
      | Except.ok (w, _) => Except.ok w
  | Step.closeFrame c code text result, w =>
    if w.readLoops = 0 then Except.error Fault.notEnabled
    else match closeReceived c code text result w with
      | Except.error f => Except.error f
      | Except.ok (w, _) => Except.ok w

/-- Perform a sequence of transitions, stopping at the first fault. -/
def run : List Step → World → Except Fault World
  | [], w => Except.ok w
  | s :: rest, w =>
    match step s w with
    | Except.error f => Except.error f
    | Except.ok w => run rest w

/-- The step is a call of `Connect`. -/
def Step.isConnect : Step → Bool
  | Step.connect _ => true
  | _ => false

/-- The step is a call of `Close` or a close frame reported by the transport. -/
def Step.isClose : Step → Bool
  | Step.close _ => true
  | Step.closeFrame _ _ _ _ => true
  | _ => false

/-- The step is a read of the read loop that fails. -/
def Step.isReadFailure : Step → Bool
  | Step.read r => r.err.isSome
  | _ => false

/-- The step is a call of `SendText`, `SendBinary` or `Close`. -/
def Step.isSendOrClose : Step → Bool
  | Step.sendText _ _ => true
  | Step.sendBinary _ _ => true
  | Step.close _ => true
  | _ => false

/-- The handlers of a connection after `Connect` has installed its closures
around the built-in ones. -/
def ConnState.wrapped : ConnState :=
  { handlePing := Handler.wrapper Handler.builtin
    handlePong := Handler.wrapper Handler.builtin
    handleClose := Handler.wrapper Handler.builtin }

/-! ## Basic facts -/

theorem conns_Connect_ok (w : World) :
    (Connect DialResult.ok w).conns = w.conns ++ [ConnState.wrapped] := by
  cases h : w.socket.OnConnected <;>
    simp [Connect, setConnectionOptions, World.emit, installHandlers, ConnState.dialed,
      ConnState.wrapped, h]

theorem socket_Connect_ok (w : World) :
    (Connect DialResult.ok w).socket =
      { w.socket with
        Conn := some w.conns.length
        IsConnected := if w.socket.OnConnected then true else w.socket.IsConnected } := by
  cases h : w.socket.OnConnected <;>
    simp [Connect, setConnectionOptions, World.emit, installHandlers, ConnState.dialed, h]

theorem mutexes_Connect (d : DialResult) (w : World) :
    (Connect d w).sendMu = w.sendMu ∧ (Connect d w).receiveMu = w.receiveMu := by
  cases d <;> cases h : w.socket.OnConnected <;> cases h2 : w.socket.OnConnectError <;>
    simp [Connect, setConnectionOptions, World.emit, installHandlers, ConnState.dialed, h, h2]

theorem readIteration_success (w : World) (c : Nat) (r : ReadResult)
    (hc : w.socket.Conn = some c) (hmu : w.receiveMu = false) (hr : r.err = none) :
    readIteration r w = Except.ok
      ({ w with
         trace := w.trace ++ ([Event.lockReceive, Event.read c r, Event.unlockReceive] ++
           (if r.messageType = TextMessage then
              (if w.socket.OnTextMessage then [Event.onTextMessage ⟨r.message⟩ w.socket]
               else [])
            else if r.messageType = BinaryMessage then
              (if w.socket.OnBinaryMessage then [Event.onBinaryMessage r.message w.socket]
               else [])
            else []))
         log := w.log ++ [LogLine.recv r.message] }, LoopStatus.reading) := by
  obtain ⟨socket, dialer, sendMu, receiveMu, conns, readLoops, trace, log⟩ := w
  simp only at hc hmu
  subst hmu
  by_cases ht : r.messageType = TextMessage
  · cases h : socket.OnTextMessage <;>
      simp [readIteration, World.emit, World.logLine, stringOfBytes, hc, hr, ht, h]
  · by_cases hb : r.messageType = BinaryMessage
    · have hne : ¬ (BinaryMessage = TextMessage) := by decide
      cases h : socket.OnBinaryMessage <;>
        simp [readIteration, World.emit, World.logLine, hc, hr, hb, hne, h]
    · simp [readIteration, World.emit, World.logLine, hc, hr, ht, hb]

theorem readLoop_cons (r : ReadResult) (rs : List ReadResult) (w : World) :
    readLoop (r :: rs) w =
      match readIteration r w with
      | Except.error f => Except.error f
      | Except.ok (w, LoopStatus.returned) => Except.ok (w, LoopStatus.returned)
      | Except.ok (w, LoopStatus.reading) => readLoop rs w := rfl

theorem readIteration_failure (w : World) (c : Nat) (r : ReadResult) (e : GoError)
    (hc : w.socket.Conn = some c) (hmu : w.receiveMu = false) (hr : r.err = some e) :
    readIteration r w = Except.ok
      ({ w with
         trace := w.trace ++ [Event.lockReceive, Event.read c r, Event.unlockReceive]
         log := w.log ++ [LogLine.read e]
         readLoops := w.readLoops - 1 }, LoopStatus.returned) := by
  obtain ⟨socket, dialer, sendMu, receiveMu, conns, readLoops, trace, log⟩ := w
  simp only at hc hmu
  subst hmu
  simp [readIteration, World.emit, World.logLine, hc, hr]

theorem Connect_fail_eq (w : World) (e : GoError) :
    Connect (DialResult.fail e) w =
      { w with
        dialer := (setConnectionOptions w).dialer
        socket := { w.socket with Conn := none, IsConnected := false }
        trace := w.trace ++ [Event.dial w.socket.Url w.socket.RequestHeader] ++
          (if w.socket.OnConnectError then
            [Event.onConnectError e { w.socket with Conn := none, IsConnected := false }]
           else []) } := by
  cases h : w.socket.OnConnectError <;>
    simp [Connect, setConnectionOptions, World.emit, h]

theorem send_eq (w : World) (c : Nat) (messageType : Int) (data : Bytes)
    (result : Option GoError) (hc : w.socket.Conn = some c) (hmu : w.sendMu = false) :
    send messageType data result w = Except.ok
      ({ w with trace := w.trace ++ [Event.lockSend,
          Event.write c messageType data result, Event.unlockSend] }, result) := by
  obtain ⟨socket, dialer, sendMu, receiveMu, conns, readLoops, trace, log⟩ := w
  simp only at hc hmu
  subst hmu
  simp [send, World.emit, hc]

theorem send_inv (w w1 : World) (messageType : Int) (data : Bytes)
    (result err : Option GoError) (h : send messageType data result w = Except.ok (w1, err)) :
    ∃ c, w.socket.Conn = some c ∧ w.sendMu = false := by
  cases hmu : w.sendMu
  · cases hc : w.socket.Conn with
    | none => simp [send, hmu, hc, World.emit] at h
    | some c => exact ⟨c, rfl, rfl⟩
  · simp [send, hmu] at h

theorem SendText_eq (w : World) (c : Nat) (message : GoString) (result : Option GoError)
    (hc : w.socket.Conn = some c) (hmu : w.sendMu = false) :
    SendText message result w = Except.ok
      { w with
        trace := w.trace ++ [Event.lockSend,
          Event.write c TextMessage message.bytes result, Event.unlockSend]
        log := w.log ++ (match result with
          | some err => [LogLine.write err]
          | none => []) } := by
  cases result <;>
    simp [SendText, send_eq w c _ _ _ hc hmu, World.logLine, bytesOfString]

theorem SendBinary_eq (w : World) (c : Nat) (data : Bytes) (result : Option GoError)
    (hc : w.socket.Conn = some c) (hmu : w.sendMu = false) :
    SendBinary data result w = Except.ok
      { w with
        trace := w.trace ++ [Event.lockSend,
          Event.write c BinaryMessage data result, Event.unlockSend]
        log := w.log ++ (match result with
          | some err => [LogLine.write err]
          | none => []) } := by
  cases result <;>
    simp [SendBinary, send_eq w c _ _ _ hc hmu, World.logLine]

theorem Close_eq (w : World) (c : Nat) (result : Option GoError)
    (hc : w.socket.Conn = some c) (hmu : w.sendMu = false) :
    Close result w = Except.ok
      { w with
        socket := if w.socket.OnDisconnected then { w.socket with IsConnected := false }
                  else w.socket
        trace := w.trace ++ [Event.lockSend,
            Event.write c CloseMessage (FormatCloseMessage CloseNormalClosure ⟨[]⟩) result,
            Event.unlockSend, Event.connClose c] ++
          (if w.socket.OnDisconnected then
            [Event.onDisconnected result { w.socket with IsConnected := false }]
           else [])
        log := w.log ++ (match result with
          | some err => [LogLine.writeClose err]
          | none => []) } := by
  cases result <;> cases h : w.socket.OnDisconnected <;>
    simp [Close, send_eq w c _ _ _ hc hmu, World.emit, World.logLine, hc, h]

theorem SendText_inv (w w1 : World) (message : GoString) (result : Option GoError)
    (h : SendText message result w = Except.ok w1) :
    ∃ c, w.socket.Conn = some c ∧ w.sendMu = false := by
  cases hs : send TextMessage (bytesOfString message) result w with
  | error f => simp [SendText, hs] at h
  | ok p => exact send_inv w p.1 _ _ _ p.2 hs

theorem SendBinary_inv (w w1 : World) (data : Bytes) (result : Option GoError)
    (h : SendBinary data result w = Except.ok w1) :
    ∃ c, w.socket.Conn = some c ∧ w.sendMu = false := by
  cases hs : send BinaryMessage data result w with
  | error f => simp [SendBinary, hs] at h
  | ok p => exact send_inv w p.1 _ _ _ p.2 hs

theorem Close_inv (w w1 : World) (result : Option GoError)
    (h : Close result w = Except.ok w1) :
    ∃ c, w.socket.Conn = some c ∧ w.sendMu = false := by
  cases hs : send CloseMessage (FormatCloseMessage CloseNormalClosure ⟨[]⟩) result w with
  | error f => simp [Close, hs] at h
  | ok p => exact send_inv w p.1 _ _ _ p.2 hs

theorem readIteration_inv (w w1 : World) (r : ReadResult) (st : LoopStatus)
    (h : readIteration r w = Except.ok (w1, st)) :
    w1.socket = w.socket ∧ w1.conns = w.conns ∧ w1.sendMu = w.sendMu ∧
      w1.receiveMu = w.receiveMu := by
  cases hmu : w.receiveMu
  · cases hc : w.socket.Conn with
    | none => simp [readIteration, hmu, hc, World.emit] at h
    | some c =>
      cases hr : r.err with
      | none =>
        rw [readIteration_success w c r hc hmu hr] at h
        injection h with h
        injection h with h _
        subst h
        exact ⟨rfl, rfl, rfl, hmu⟩
      | some e =>
        rw [readIteration_failure w c r e hc hmu hr] at h
        injection h with h
        injection h with h _
        subst h
        exact ⟨rfl, rfl, rfl, hmu⟩
  · simp [readIteration, hmu] at h

theorem runPingHandler_frame (c : Nat) (d : GoString) (result : Option GoError)
    (h : Handler) (w : World) :
    (runPingHandler c d result h w).1.socket = w.socket ∧
    (runPingHandler c d result h w).1.conns = w.conns ∧
    (runPingHandler c d result h w).1.sendMu = w.sendMu ∧
    (runPingHandler c d result h w).1.receiveMu = w.receiveMu := by
  induction h generalizing w with
  | builtin => simp [runPingHandler, World.emit]
  | wrapper previous ih =>
    cases hp : w.socket.OnPingReceived <;>
      simp [runPingHandler, hp, ih, World.emit]

theorem runPongHandler_frame (c : Nat) (d : GoString) (result : Option GoError)
    (h : Handler) (w : World) :
    (runPongHandler c d result h w).1.socket = w.socket ∧
    (runPongHandler c d result h w).1.conns = w.conns ∧
    (runPongHandler c d result h w).1.sendMu = w.sendMu ∧
    (runPongHandler c d result h w).1.receiveMu = w.receiveMu := by
  induction h generalizing w with
  | builtin => simp [runPongHandler, World.emit]
  | wrapper previous ih =>
    cases hp : w.socket.OnPongReceived <;>
      simp [runPongHandler, hp, ih, World.emit]

theorem runCloseHandler_wrapped (c : Nat) (code : Int) (text : GoString)
    (result : Option GoError) (w : World) :
    runCloseHandler c code text result (Handler.wrapper Handler.builtin) w =
      ({ w with
         socket := if w.socket.OnDisconnected then { w.socket with IsConnected := false }
                   else w.socket
         trace := w.trace ++ [Event.defaultClose c code text] ++
           (if w.socket.OnDisconnected then
             [Event.onDisconnected (some ⟨text⟩) { w.socket with IsConnected := false }]
            else []) }, result) := by
  cases h : w.socket.OnDisconnected <;>
    simp [runCloseHandler, World.emit, errorsNew, h]

theorem run_append (a b : List Step) (w : World) :
    run (a ++ b) w =
      match run a w with
      | Except.error f => Except.error f
      | Except.ok w1 => run b w1 := by
  induction a generalizing w with
  | nil => rfl
  | cons s rest ih =>
    simp only [List.cons_append, run]
    cases step s w with
    | error f => rfl
    | ok w1 => exact ih w1

theorem step_sendOrClose (st : Step) (w : World) (c : Nat) (hst : st.isSendOrClose = true)
    (hc : w.socket.Conn = some c) (hmu : w.sendMu = false) :
    ∃ w1, step st w = Except.ok w1 ∧ w1.socket.Conn = some c ∧ w1.sendMu = false := by
  cases st with
  | sendText message result =>
    exact ⟨_, SendText_eq w c message result hc hmu, hc, hmu⟩
  | sendBinary data result =>
    exact ⟨_, SendBinary_eq w c data result hc hmu, hc, hmu⟩
  | close result =>
    refine ⟨_, Close_eq w c result hc hmu, ?_, hmu⟩
    cases h : w.socket.OnDisconnected <;> simp [h, hc]
  | connect dial => simp [Step.isSendOrClose] at hst
  | read r => simp [Step.isSendOrClose] at hst
  | ping c1 appData result => simp [Step.isSendOrClose] at hst
  | pong c1 appData result => simp [Step.isSendOrClose] at hst
  | closeFrame c1 code text result => simp [Step.isSendOrClose] at hst

theorem run_sendOrClose (ops : List Step) (w : World) (c : Nat)
    (hops : ∀ st ∈ ops, st.isSendOrClose = true)
    (hc : w.socket.Conn = some c) (hmu : w.sendMu = false) :
    ∃ w1, run ops w = Except.ok w1 ∧ w1.socket.Conn = some c ∧ w1.sendMu = false := by
  induction ops generalizing w with
  | nil => exact ⟨w, rfl, hc, hmu⟩
  | cons st rest ih =>
    obtain ⟨w1, h1, hc1, hmu1⟩ :=
      step_sendOrClose st w c (hops st (List.mem_cons_self _ _)) hc hmu
    obtain ⟨w2, h2, hc2, hmu2⟩ :=
      ih w1 (fun x hx => hops x (List.mem_cons_of_mem _ hx)) hc1 hmu1
    refine ⟨w2, ?_, hc2, hmu2⟩
    simp only [run, h1]
    exact h2

theorem step_effect (st : Step) (w w1 : World) (h : step st w = Except.ok w1)
    (hw : ∀ cs ∈ w.conns, cs = ConnState.wrapped) :
    w1.socket.OnDisconnected = w.socket.OnDisconnected ∧
    (∀ cs ∈ w1.conns, cs = ConnState.wrapped) ∧
    (st = Step.connect DialResult.ok ∨ (w.socket.Conn = none → w1.socket.Conn = none)) ∧
    (w1.socket.IsConnected = true →
      st = Step.connect DialResult.ok ∨
      (st.isConnect = false ∧ w.socket.IsConnected = true ∧
        (st.isClose = true → w.socket.OnDisconnected = false))) := by
  cases st with
  | connect dial =>
    simp only [step, Except.ok.injEq] at h
    subst h
    cases dial with
    | ok =>
      refine ⟨by rw [socket_Connect_ok], ?_, Or.inl rfl, fun _ => Or.inl rfl⟩
      rw [conns_Connect_ok]
      intro cs hcs
      rcases List.mem_append.1 hcs with h1 | h1
      · exact hw cs h1
      · simpa using h1
    | fail e =>
      rw [Connect_fail_eq]
      exact ⟨rfl, hw, Or.inr (fun _ => rfl), fun hf => by simp at hf⟩
  | sendText message result =>
    simp only [step] at h
    obtain ⟨c, hc, hmu⟩ := SendText_inv w w1 message result h
    rw [SendText_eq w c message result hc hmu, Except.ok.injEq] at h
    subst h
    exact ⟨rfl, hw, Or.inr id, fun hf => Or.inr ⟨rfl, hf, by simp [Step.isClose]⟩⟩
  | sendBinary data result =>
    simp only [step] at h
    obtain ⟨c, hc, hmu⟩ := SendBinary_inv w w1 data result h
    rw [SendBinary_eq w c data result hc hmu, Except.ok.injEq] at h
    subst h
    exact ⟨rfl, hw, Or.inr id, fun hf => Or.inr ⟨rfl, hf, by simp [Step.isClose]⟩⟩
  | close result =>
    simp only [step] at h
    obtain ⟨c, hc, hmu⟩ := Close_inv w w1 result h
    rw [Close_eq w c result hc hmu, Except.ok.injEq] at h
    subst h
    cases hd : w.socket.OnDisconnected
    · exact ⟨by simp [hd], hw, Or.inr (by simp [hd]),
        fun hf => Or.inr ⟨rfl, by simpa [hd] using hf, fun _ => rfl⟩⟩
    · exact ⟨by simp [hd], hw, Or.inr (by simp [hd]), fun hf => by simp [hd] at hf⟩
  | read r =>
    simp only [step] at h
    split at h
    · exact absurd h (by simp)
    · cases hr : readIteration r w with
      | error f => simp [hr] at h
      | ok p =>
        obtain ⟨w2, status⟩ := p
        simp only [hr, Except.ok.injEq] at h
        subst h
        obtain ⟨hs, hcn, -⟩ := readIteration_inv w w2 r status hr
        rw [hs, hcn]
        exact ⟨rfl, hw, Or.inr id, fun hf => Or.inr ⟨rfl, hf, by simp [Step.isClose]⟩⟩
  | ping c appData result =>
    simp only [step] at h
    split at h
    · exact absurd h (by simp)
    · cases hcs : w.conns[c]? with
      | none => simp [pingReceived, hcs] at h
      | some cs =>
        simp only [pingReceived, hcs, Except.ok.injEq] at h
        subst h
        obtain ⟨hs, hcn, -⟩ := runPingHandler_frame c appData result cs.handlePing w
        rw [hs, hcn]
        exact ⟨rfl, hw, Or.inr id, fun hf => Or.inr ⟨rfl, hf, by simp [Step.isClose]⟩⟩
  | pong c appData result =>
    simp only [step] at h
    split at h
    · exact absurd h (by simp)
    · cases hcs : w.conns[c]? with
      | none => simp [pongReceived, hcs] at h
      | some cs =>
        simp only [pongReceived, hcs, Except.ok.injEq] at h
        subst h
        obtain ⟨hs, hcn, -⟩ := runPongHandler_frame c appData result cs.handlePong w
        rw [hs, hcn]
        exact ⟨rfl, hw, Or.inr id, fun hf => Or.inr ⟨rfl, hf, by simp [Step.isClose]⟩⟩
  | closeFrame c code text result =>
    simp only [step] at h
    split at h
    · exact absurd h (by simp)
    · cases hcs : w.conns[c]? with
      | none => simp [closeReceived, hcs] at h
      | some cs =>
        have hwrapped : cs = ConnState.wrapped := hw cs (List.getElem?_mem hcs)
        subst hwrapped
        simp only [closeReceived, hcs, ConnState.wrapped, runCloseHandler_wrapped,
          Except.ok.injEq] at h
        subst h
        cases hd : w.socket.OnDisconnected
        · exact ⟨by simp [hd], hw, Or.inr (by simp [hd]),
            fun hf => Or.inr ⟨rfl, by simpa [hd] using hf, fun _ => rfl⟩⟩
        · exact ⟨by simp [hd], hw, Or.inr (by simp [hd]), fun hf => by simp [hd] at hf⟩

theorem run_invariant (s : Socket) (hconn : s.Conn = none) (hflag : s.IsConnected = false)
    (ops : List Step) :
    ∀ w, run ops (World.fresh s) = Except.ok w →
      w.socket.OnDisconnected = s.OnDisconnected ∧
      (∀ cs ∈ w.conns, cs = ConnState.wrapped) ∧
      ((∀ st ∈ ops, st ≠ Step.connect DialResult.ok) → w.socket.Conn = none) ∧
      (w.socket.IsConnected = true →
        ∃ pre post, ops = pre ++ Step.connect DialResult.ok :: post ∧
          (∀ x ∈ post, x.isConnect = false) ∧
          (s.OnDisconnected = true → ∀ x ∈ post, x.isClose = false)) := by
  induction ops using List.reverseRecOn with
  | nil =>
    intro w h
    simp only [run, Except.ok.injEq] at h
    subst h
    refine ⟨rfl, ?_, fun _ => hconn, ?_⟩
    · intro cs hcs
      simp [World.fresh] at hcs
    · intro hf
      simp [World.fresh, hflag] at hf
  | append_singleton l st ih =>
    intro w h
    rw [run_append] at h
    cases hl : run l (World.fresh s) with
    | error f => simp [hl] at h
    | ok w0 =>
      simp only [hl, run] at h
      cases hst : step st w0 with
      | error f => simp [hst] at h
      | ok w1 =>
        simp only [hst, Except.ok.injEq] at h
        subst h
        obtain ⟨hd0, hw0, hc0, hi0⟩ := ih w0 hl
        obtain ⟨hd1, hw1, hc1, hi1⟩ := step_effect st w0 w1 hst hw0
        refine ⟨hd1.trans hd0, hw1, ?_, ?_⟩
        · intro hno
          rcases hc1 with hc1 | hc1
          · exact absurd hc1 (hno st (by simp))
          · exact hc1 (hc0 (fun x hx => hno x (by simp [hx])))
        · intro hf
          rcases hi1 hf with h1 | ⟨hnc, hprev, hcl⟩
          · subst h1
            exact ⟨l, [], rfl, by simp, by simp⟩
          · obtain ⟨pre, post, heq, hpc, hpd⟩ := hi0 hprev
            refine ⟨pre, post ++ [st], by simp [heq], ?_, ?_⟩
            · intro x hx
              rcases List.mem_append.1 hx with hx | hx
              · exact hpc x hx
              · simp only [List.mem_singleton] at hx
                subst hx
                exact hnc
            · intro hreg x hx
              rcases List.mem_append.1 hx with hx | hx
              · exact hpd hreg x hx
              · simp only [List.mem_singleton] at hx
                subst hx
                cases hx2 : x.isClose
                · rfl
                · have := hcl hx2
                  rw [hd0, hreg] at this
                  exact absurd this (by simp)

theorem step_receiveMu (st : Step) (w w1 : World) (h : step st w = Except.ok w1)
    (hw : ∀ cs ∈ w.conns, cs = ConnState.wrapped) :
    w1.receiveMu = w.receiveMu := by
  cases st with
  | connect dial =>
    simp only [step, Except.ok.injEq] at h
    subst h
    exact (mutexes_Connect dial w).2
  | sendText message result =>
    simp only [step] at h
    obtain ⟨c, hc, hmu⟩ := SendText_inv w w1 message result h
    rw [SendText_eq w c message result hc hmu, Except.ok.injEq] at h
    subst h
    rfl
  | sendBinary data result =>
    simp only [step] at h
    obtain ⟨c, hc, hmu⟩ := SendBinary_inv w w1 data result h
    rw [SendBinary_eq w c data result hc hmu, Except.ok.injEq] at h
    subst h
    rfl
  | close result =>
    simp only [step] at h
    obtain ⟨c, hc, hmu⟩ := Close_inv w w1 result h
    rw [Close_eq w c result hc hmu, Except.ok.injEq] at h
    subst h
    rfl
  | read r =>
    simp only [step] at h
    split at h
    · exact absurd h (by simp)
    · cases hr : readIteration r w with
      | error f => simp [hr] at h
      | ok p =>
        obtain ⟨w2, status⟩ := p
        simp only [hr, Except.ok.injEq] at h
        subst h
        exact (readIteration_inv w w2 r status hr).2.2.2
  | ping c appData result =>
    simp only [step] at h
    split at h
    · exact absurd h (by simp)
    · cases hcs : w.conns[c]? with
      | none => simp [pingReceived, hcs] at h
      | some cs =>
        simp only [pingReceived, hcs, Except.ok.injEq] at h
        subst h
        exact (runPingHandler_frame c appData result cs.handlePing w).2.2.2
  | pong c appData result =>
    simp only [step] at h
    split at h
    · exact absurd h (by simp)
    · cases hcs : w.conns[c]? with
      | none => simp [pongReceived, hcs] at h
      | some cs =>
        simp only [pongReceived, hcs, Except.ok.injEq] at h
        subst h
        exact (runPongHandler_frame c appData result cs.handlePong w).2.2.2
  | closeFrame c code text result =>
    simp only [step] at h
    split at h
    · exact absurd h (by simp)
    · cases hcs : w.conns[c]? with
      | none => simp [closeReceived, hcs] at h
      | some cs =>
        have hwrapped : cs = ConnState.wrapped := hw cs (List.getElem?_mem hcs)
        subst hwrapped
        simp only [closeReceived, hcs, ConnState.wrapped, runCloseHandler_wrapped,
          Except.ok.injEq] at h
        subst h
        rfl

theorem run_receiveMu (ops : List Step) :
    ∀ w w1, run ops w = Except.ok w1 → (∀ cs ∈ w.conns, cs = ConnState.wrapped) →
      w1.receiveMu = w.receiveMu := by
  induction ops with
  | nil =>
    intro w w1 h _
    simp only [run, Except.ok.injEq] at h
    subst h
    rfl
  | cons st rest ih =>
    intro w w1 h hw
    simp only [run] at h
    cases hst : step st w with
    | error f => simp [hst] at h
    | ok w2 =>
      simp only [hst] at h
      have h2 := (step_effect st w w2 hst hw).2.1
      rw [ih w2 w1 h h2, step_receiveMu st w w2 hst hw]

theorem step_read_flag (r : ReadResult) (w w1 : World)
    (h : step (Step.read r) w = Except.ok w1) :
    w1.socket.IsConnected = w.socket.IsConnected := by
  simp only [step] at h
  split at h
  · exact absurd h (by simp)
  · cases hr : readIteration r w with
    | error f => simp [hr] at h
    | ok p =>
      obtain ⟨w2, status⟩ := p
      simp only [hr, Except.ok.injEq] at h
      subst h
      rw [(readIteration_inv w w2 r status hr).1]

theorem step_read_enabled (r : ReadResult) (w : World) (c : Nat)
    (hl : w.readLoops ≠ 0) (hc : w.socket.Conn = some c) (hmu : w.receiveMu = false) :
    ∃ w1, step (Step.read r) w = Except.ok w1 := by
  cases hr : r.err with
  | none =>
    simp [step, hl, readIteration_success w c r hc hmu hr]
  | some e =>
    simp [step, hl, readIteration_failure w c r e hc hmu hr]

/-! ## Theorems -/

/-- C1 (the code at the failing input): a socket made by New, with no
OnConnected callback registered, is connected with a dial that succeeds; when
Connect returns the transport handle is present and IsConnected is false. -/
theorem C1_Connect_success_flag_not_set :
    (Connect DialResult.ok (World.fresh (New ⟨[119, 115, 58, 47, 47, 104]⟩))).socket.Conn = some 0 ∧
    (Connect DialResult.ok (World.fresh (New ⟨[119, 115, 58, 47, 47, 104]⟩))).socket.IsConnected
      = false := by
  decide

/-- C2: when the dial fails with error e, Connect returns with IsConnected
false and the transport handle absent; the only effects are the dial itself
and, if OnConnectError is registered, one invocation of it with e and a
snapshot whose IsConnected is false; no other callback runs, no handler is
installed on any connection and no read loop is started. -/
theorem C2_Connect_dial_failure (w : World) (e : GoError) :
    Connect (DialResult.fail e) w =
      { w with
        dialer := (setConnectionOptions w).dialer
        socket := { w.socket with Conn := none, IsConnected := false }
        trace := w.trace ++ [Event.dial w.socket.Url w.socket.RequestHeader] ++
          (if w.socket.OnConnectError then
            [Event.onConnectError e { w.socket with Conn := none, IsConnected := false }]
           else []) } ∧
    (Connect (DialResult.fail e) w).socket.IsConnected = false ∧
    (Connect (DialResult.fail e) w).socket.Conn = none ∧
    (Connect (DialResult.fail e) w).conns = w.conns ∧
    (Connect (DialResult.fail e) w).readLoops = w.readLoops := by
  refine ⟨Connect_fail_eq w e, ?_, ?_, ?_, ?_⟩ <;> rw [Connect_fail_eq]

/-- C6: on a socket whose transport handle is present, SendText (SendBinary)
locks the send mutex, performs one write of a text (binary) frame carrying the
bytes of the message, and unlocks the send mutex, whether or not the write
fails; nothing else happens in the world except one log line when the write
fails: the receive mutex is not touched, no callback runs, and every field of
the socket is as before. -/
theorem C6_SendText_SendBinary (w : World) (c : Nat) (message : GoString) (data : Bytes)
    (result : Option GoError) (hc : w.socket.Conn = some c) (hmu : w.sendMu = false) :
    SendText message result w = Except.ok
      { w with
        trace := w.trace ++ [Event.lockSend,
          Event.write c TextMessage message.bytes result, Event.unlockSend]
        log := w.log ++ (match result with
          | some err => [LogLine.write err]
          | none => []) } ∧
    SendBinary data result w = Except.ok
      { w with
        trace := w.trace ++ [Event.lockSend,
          Event.write c BinaryMessage data result, Event.unlockSend]
        log := w.log ++ (match result with
          | some err => [LogLine.write err]
          | none => []) } := by
  exact ⟨SendText_eq w c message result hc hmu, SendBinary_eq w c data result hc hmu⟩

/-- C3: on a socket whose transport handle is present, one call of Close has
exactly these effects, in this order: under the send mutex, one write of a
close frame whose payload is the two bytes of code 1000 and no reason; one
close of the transport, also when the write failed; and, if OnDisconnected is
registered, one invocation of it with the error of the write (nil on success)
and a snapshot whose IsConnected is false.  No other callback runs. -/
theorem C3_Close_effects (w : World) (c : Nat) (result : Option GoError)
    (hc : w.socket.Conn = some c) (hmu : w.sendMu = false) :
    Close result w = Except.ok
      { w with
        socket := if w.socket.OnDisconnected then { w.socket with IsConnected := false }
                  else w.socket
        trace := w.trace ++ [Event.lockSend,
            Event.write c CloseMessage (FormatCloseMessage CloseNormalClosure ⟨[]⟩) result,
            Event.unlockSend, Event.connClose c] ++
          (if w.socket.OnDisconnected then
            [Event.onDisconnected result { w.socket with IsConnected := false }]
           else [])
        log := w.log ++ (match result with
          | some err => [LogLine.writeClose err]
          | none => []) } ∧
    CloseMessage = 8 ∧
    FormatCloseMessage CloseNormalClosure ⟨[]⟩ = [1000 / 256, 1000 % 256] := by
  exact ⟨Close_eq w c result hc hmu, rfl, by decide⟩

/-- C4: one iteration of the read loop whose read succeeds.  A text frame with
payload p invokes OnTextMessage, when registered, once with the string holding
exactly the bytes of p, and does not invoke OnBinaryMessage; a binary frame with
payload b invokes OnBinaryMessage, when registered, once with exactly b, and
does not invoke OnTextMessage; a frame of another kind invokes neither. -/
theorem C4_read_dispatch (w : World) (c : Nat) (r : ReadResult)
    (hc : w.socket.Conn = some c) (hmu : w.receiveMu = false) (hr : r.err = none) :
    (r.messageType = TextMessage →
      readIteration r w = Except.ok
        ({ w with
           trace := w.trace ++ [Event.lockReceive, Event.read c r, Event.unlockReceive] ++
             (if w.socket.OnTextMessage then [Event.onTextMessage ⟨r.message⟩ w.socket]
              else [])
           log := w.log ++ [LogLine.recv r.message] }, LoopStatus.reading)) ∧
    (r.messageType = BinaryMessage →
      readIteration r w = Except.ok
        ({ w with
           trace := w.trace ++ [Event.lockReceive, Event.read c r, Event.unlockReceive] ++
             (if w.socket.OnBinaryMessage then [Event.onBinaryMessage r.message w.socket]
              else [])
           log := w.log ++ [LogLine.recv r.message] }, LoopStatus.reading)) ∧
    (r.messageType ≠ TextMessage → r.messageType ≠ BinaryMessage →
      readIteration r w = Except.ok
        ({ w with
           trace := w.trace ++ [Event.lockReceive, Event.read c r, Event.unlockReceive]
           log := w.log ++ [LogLine.recv r.message] }, LoopStatus.reading)) := by
  obtain ⟨socket, dialer, sendMu, receiveMu, conns, readLoops, trace, log⟩ := w
  simp only at hc hmu
  subst hmu
  refine ⟨?_, ?_, ?_⟩
  · intro ht
    cases h : socket.OnTextMessage <;>
      simp [readIteration, World.emit, World.logLine, stringOfBytes, hc, hr, ht, h]
  · intro hb
    have hne : ¬ (BinaryMessage = TextMessage) := by decide
    cases h : socket.OnBinaryMessage <;>
      simp [readIteration, World.emit, World.logLine, hc, hr, hb, hne, h]
  · intro ht hb
    simp [readIteration, World.emit, World.logLine, hc, hr, ht, hb]

/-- C4 at the inputs of the spec: text frame "hello" and binary frame [1, 2] on
a connected socket with both callbacks registered. -/
theorem C4_read_dispatch_witness :
    readIteration ⟨1, [104, 101, 108, 108, 111], none⟩
        (Connect DialResult.ok (World.fresh
          { New ⟨[119, 115]⟩ with OnTextMessage := true, OnBinaryMessage := true })) =
      Except.ok
        ({ Connect DialResult.ok (World.fresh
            { New ⟨[119, 115]⟩ with OnTextMessage := true, OnBinaryMessage := true }) with
           trace := [Event.dial ⟨[119, 115]⟩ [], Event.setPingHandler 0,
             Event.setPongHandler 0, Event.setCloseHandler 0, Event.spawnReadLoop,
             Event.lockReceive, Event.read 0 ⟨1, [104, 101, 108, 108, 111], none⟩,
             Event.unlockReceive,
             Event.onTextMessage ⟨[104, 101, 108, 108, 111]⟩
               { New ⟨[119, 115]⟩ with
                 OnTextMessage := true, OnBinaryMessage := true, Conn := some 0 }]
           log := [LogLine.recv [104, 101, 108, 108, 111]] }, LoopStatus.reading) ∧
    readIteration ⟨2, [1, 2], none⟩
        (Connect DialResult.ok (World.fresh
          { New ⟨[119, 115]⟩ with OnTextMessage := true, OnBinaryMessage := true })) =
      Except.ok
        ({ Connect DialResult.ok (World.fresh
            { New ⟨[119, 115]⟩ with OnTextMessage := true, OnBinaryMessage := true }) with
           trace := [Event.dial ⟨[119, 115]⟩ [], Event.setPingHandler 0,
             Event.setPongHandler 0, Event.setCloseHandler 0, Event.spawnReadLoop,
             Event.lockReceive, Event.read 0 ⟨2, [1, 2], none⟩, Event.unlockReceive,
             Event.onBinaryMessage [1, 2]
               { New ⟨[119, 115]⟩ with
                 OnTextMessage := true, OnBinaryMessage := true, Conn := some 0 }]
           log := [LogLine.recv [1, 2]] }, LoopStatus.reading) :=
  ⟨(C4_read_dispatch _ 0 ⟨1, [104, 101, 108, 108, 111], none⟩ rfl rfl rfl).1 rfl,
   (C4_read_dispatch _ 0 ⟨2, [1, 2], none⟩ rfl rfl rfl).2.1 rfl⟩

/-- C5: let c be the connection opened by a successful Connect.  In any later
world in which c still carries the handlers that Connect installed, a ping
(pong) frame with payload d reported on c invokes OnPingReceived
(OnPongReceived), when registered, once with d, then runs the built-in ping
(pong) handler of c once with d, and returns the result of the built-in
handler; when the callback is not registered the outcome is that of the
built-in handler alone. -/
theorem C5_ping_pong_wrappers (w0 w : World) (d : GoString) (result : Option GoError)
    (hinst : w.conns[w0.conns.length]? = (Connect DialResult.ok w0).conns[w0.conns.length]?) :
    pingReceived w0.conns.length d result w = Except.ok
      ({ w with trace := w.trace ++
          (if w.socket.OnPingReceived then [Event.onPingReceived d w.socket] else []) ++
          [Event.defaultPing w0.conns.length d] }, result) ∧
    pongReceived w0.conns.length d result w = Except.ok
      ({ w with trace := w.trace ++
          (if w.socket.OnPongReceived then [Event.onPongReceived d w.socket] else []) ++
          [Event.defaultPong w0.conns.length d] }, result) ∧
    (w.socket.OnPingReceived = false →
      pingReceived w0.conns.length d result w =
        Except.ok (runPingHandler w0.conns.length d result Handler.builtin w)) ∧
    (w.socket.OnPongReceived = false →
      pongReceived w0.conns.length d result w =
        Except.ok (runPongHandler w0.conns.length d result Handler.builtin w)) := by
  have hw : w.conns[w0.conns.length]? = some ConnState.wrapped := by
    rw [hinst, conns_Connect_ok]
    simp
  refine ⟨?_, ?_, ?_, ?_⟩
  · cases h : w.socket.OnPingReceived <;>
      simp [pingReceived, hw, ConnState.wrapped, runPingHandler, World.emit, h]
  · cases h : w.socket.OnPongReceived <;>
      simp [pongReceived, hw, ConnState.wrapped, runPongHandler, World.emit, h]
  · intro h
    simp [pingReceived, hw, ConnState.wrapped, runPingHandler, World.emit, h]
  · intro h
    simp [pongReceived, hw, ConnState.wrapped, runPongHandler, World.emit, h]

/-- C5 on a socket made by New with OnPingReceived registered, right after a
successful Connect: a ping with payload "p". -/
theorem C5_ping_pong_wrappers_witness :
    pingReceived 0 ⟨[112]⟩ none
        (Connect DialResult.ok (World.fresh { New ⟨[119, 115]⟩ with OnPingReceived := true })) =
      Except.ok
        ({ Connect DialResult.ok
            (World.fresh { New ⟨[119, 115]⟩ with OnPingReceived := true }) with
           trace := [Event.dial ⟨[119, 115]⟩ [], Event.setPingHandler 0,
             Event.setPongHandler 0, Event.setCloseHandler 0, Event.spawnReadLoop,
             Event.onPingReceived ⟨[112]⟩
               { New ⟨[119, 115]⟩ with OnPingReceived := true, Conn := some 0 },
             Event.defaultPing 0 ⟨[112]⟩] }, none) :=
  (C5_ping_pong_wrappers (World.fresh { New ⟨[119, 115]⟩ with OnPingReceived := true })
    (Connect DialResult.ok (World.fresh { New ⟨[119, 115]⟩ with OnPingReceived := true }))
    ⟨[112]⟩ none rfl).1

/-- C9 (the code at the failing input): a socket made by New with OnConnected
registered and OnDisconnected not registered is connected with success, so
IsConnected is true; the transport then reports a close frame (1000, "bye") on
that connection.  The installed close handler runs the built-in close handler
once and returns its result, and IsConnected is still true afterwards. -/
theorem C9_close_handler_flag_not_cleared :
    (Connect DialResult.ok
      (World.fresh { New ⟨[119, 115]⟩ with OnConnected := true })).socket.IsConnected = true ∧
    closeReceived 0 1000 ⟨[98, 121, 101]⟩ none
        (Connect DialResult.ok (World.fresh { New ⟨[119, 115]⟩ with OnConnected := true })) =
      Except.ok
        ({ Connect DialResult.ok
            (World.fresh { New ⟨[119, 115]⟩ with OnConnected := true }) with
           socket := { New ⟨[119, 115]⟩ with
             OnConnected := true, Conn := some 0, IsConnected := true }
           trace := (Connect DialResult.ok
               (World.fresh { New ⟨[119, 115]⟩ with OnConnected := true })).trace ++
             [Event.defaultClose 0 1000 ⟨[98, 121, 101]⟩] }, none) := by
  exact ⟨by decide, rfl⟩

/-- C10: the read loop run against read results of which the first failing
one comes after the successful reads pre.  The loop returns at that failure:
for each frame of pre, in order, it locks the receive mutex, reads, unlocks,
and then dispatches the frame (one callback at most, OnTextMessage or
OnBinaryMessage); at the failing read it locks, reads, unlocks and returns;
the results after the failure are never read.  The socket, IsConnected
included, is left as it was, and no other callback is invoked. -/
theorem C10_read_loop_stops_at_first_failure (w : World) (c : Nat)
    (pre post : List ReadResult) (f : ReadResult) (e : GoError)
    (hc : w.socket.Conn = some c) (hmu : w.receiveMu = false)
    (hpre : ∀ r ∈ pre, r.err = none) (hf : f.err = some e) :
    readLoop (pre ++ f :: post) w = Except.ok
      ({ w with
         trace := w.trace ++
           pre.flatMap (fun r =>
             [Event.lockReceive, Event.read c r, Event.unlockReceive] ++
             (if r.messageType = TextMessage then
                (if w.socket.OnTextMessage then [Event.onTextMessage ⟨r.message⟩ w.socket]
                 else [])
              else if r.messageType = BinaryMessage then
                (if w.socket.OnBinaryMessage then [Event.onBinaryMessage r.message w.socket]
                 else [])
              else [])) ++
           [Event.lockReceive, Event.read c f, Event.unlockReceive]
         log := w.log ++ pre.map (fun r => LogLine.recv r.message) ++ [LogLine.read e]
         readLoops := w.readLoops - 1 }, LoopStatus.returned) := by
  induction pre generalizing w with
  | nil =>
    simp [readLoop, readIteration_failure w c f e hc hmu hf]
  | cons r rest ih =>
    have hr : r.err = none := hpre r (List.mem_cons_self _ _)
    have hrest : ∀ x ∈ rest, x.err = none := fun x hx => hpre x (List.mem_cons_of_mem _ hx)
    rw [List.cons_append, readLoop_cons, readIteration_success w c r hc hmu hr]
    dsimp only
    rw [ih { w with
          trace := w.trace ++ ([Event.lockReceive, Event.read c r, Event.unlockReceive] ++
            (if r.messageType = TextMessage then
               (if w.socket.OnTextMessage then [Event.onTextMessage ⟨r.message⟩ w.socket]
                else [])
             else if r.messageType = BinaryMessage then
               (if w.socket.OnBinaryMessage then [Event.onBinaryMessage r.message w.socket]
                else [])
             else []))
          log := w.log ++ [LogLine.recv r.message] } hc hmu hrest]
    simp [List.append_assoc]

/-- C10 on a connected socket with OnTextMessage registered: a text frame
"hi", then a failing read, then a frame that is never read. -/
theorem C10_read_loop_stops_at_first_failure_witness :
    readLoop [⟨1, [104, 105], none⟩, ⟨-1, [], some ⟨⟨[101, 111, 102]⟩⟩⟩, ⟨2, [7], none⟩]
        (Connect DialResult.ok (World.fresh { New ⟨[119, 115]⟩ with OnTextMessage := true })) =
      Except.ok
        ({ Connect DialResult.ok
            (World.fresh { New ⟨[119, 115]⟩ with OnTextMessage := true }) with
           trace := [Event.dial ⟨[119, 115]⟩ [], Event.setPingHandler 0,
             Event.setPongHandler 0, Event.setCloseHandler 0, Event.spawnReadLoop,
             Event.lockReceive, Event.read 0 ⟨1, [104, 105], none⟩, Event.unlockReceive,
             Event.onTextMessage ⟨[104, 105]⟩
               { New ⟨[119, 115]⟩ with OnTextMessage := true, Conn := some 0 },
             Event.lockReceive, Event.read 0 ⟨-1, [], some ⟨⟨[101, 111, 102]⟩⟩⟩,
             Event.unlockReceive]
           log := [LogLine.recv [104, 105], LogLine.read ⟨⟨[101, 111, 102]⟩⟩]
           readLoops := 0 }, LoopStatus.returned) :=
  C10_read_loop_stops_at_first_failure
    (Connect DialResult.ok (World.fresh { New ⟨[119, 115]⟩ with OnTextMessage := true }))
    0 [⟨1, [104, 105], none⟩] [⟨2, [7], none⟩] ⟨-1, [], some ⟨⟨[101, 111, 102]⟩⟩⟩
    ⟨⟨[101, 111, 102]⟩⟩ rfl rfl (by decide) rfl

/-- C8: after a successful Connect (send mutex free), with c the connection it
opened: a first Close followed by a second Close both complete; the transport
handle is still c after each; the second Close performs the same steps as a
first one (close-frame write under the send mutex, transport close, then
OnDisconnected, if registered, with the error of the second write); and every
sequence of SendText, SendBinary and Close calls completes without a call
through an absent handle and leaves the handle equal to c. -/
theorem C8_close_twice_no_crash (w0 : World) (hmu : w0.sendMu = false) :
    (∀ r1 r2 : Option GoError, ∃ w1 w2,
      Close r1 (Connect DialResult.ok w0) = Except.ok w1 ∧
      Close r2 w1 = Except.ok w2 ∧
      w1.socket.Conn = some w0.conns.length ∧
      w2.socket.Conn = some w0.conns.length ∧
      w2.trace = w1.trace ++ [Event.lockSend,
          Event.write w0.conns.length CloseMessage
            (FormatCloseMessage CloseNormalClosure ⟨[]⟩) r2,
          Event.unlockSend, Event.connClose w0.conns.length] ++
        (if w1.socket.OnDisconnected then
          [Event.onDisconnected r2 { w1.socket with IsConnected := false }]
         else [])) ∧
    (∀ ops : List Step, (∀ st ∈ ops, st.isSendOrClose = true) →
      ∃ w, run ops (Connect DialResult.ok w0) = Except.ok w ∧
        w.socket.Conn = some w0.conns.length) := by
  have hc : (Connect DialResult.ok w0).socket.Conn = some w0.conns.length := by
    rw [socket_Connect_ok]
  have hm : (Connect DialResult.ok w0).sendMu = false := by
    rw [(mutexes_Connect DialResult.ok w0).1, hmu]
  refine ⟨?_, ?_⟩
  · intro r1 r2
    obtain ⟨w1, h1, hc1, hmu1⟩ :=
      step_sendOrClose (Step.close r1) _ _ rfl hc hm
    have h2 := Close_eq w1 _ r2 hc1 hmu1
    refine ⟨w1, _, h1, h2, hc1, ?_, rfl⟩
    cases h : w1.socket.OnDisconnected <;> simp [h, hc1]
  · intro ops hops
    obtain ⟨w, h, hcw, -⟩ := run_sendOrClose ops _ _ hops hc hm
    exact ⟨w, h, hcw⟩

/-- C8 on a socket made by New with OnDisconnected registered: Connect
succeeds, then Close is called twice, the second write failing. -/
theorem C8_close_twice_no_crash_witness :
    ∃ w, run [Step.close none, Step.close (some ⟨⟨[99]⟩⟩)]
        (Connect DialResult.ok (World.fresh { New ⟨[119, 115]⟩ with OnDisconnected := true }))
          = Except.ok w ∧
      w.socket.Conn = some 0 :=
  (C8_close_twice_no_crash (World.fresh { New ⟨[119, 115]⟩ with OnDisconnected := true })
    rfl).2 [Step.close none, Step.close (some ⟨⟨[99]⟩⟩)] (by decide)

/-- C3 on a connected socket made by New with OnConnected and OnDisconnected
registered, the close-frame write succeeding. -/
theorem C3_Close_effects_witness :
    Close none (Connect DialResult.ok (World.fresh
        { New ⟨[119, 115]⟩ with OnConnected := true, OnDisconnected := true })) =
      Except.ok
        { Connect DialResult.ok (World.fresh
            { New ⟨[119, 115]⟩ with OnConnected := true, OnDisconnected := true }) with
          socket := { New ⟨[119, 115]⟩ with
            OnConnected := true, OnDisconnected := true, Conn := some 0, IsConnected := false }
          trace := (Connect DialResult.ok (World.fresh
              { New ⟨[119, 115]⟩ with OnConnected := true, OnDisconnected := true })).trace ++
            [Event.lockSend, Event.write 0 8 [3, 232] none, Event.unlockSend,
             Event.connClose 0,
             Event.onDisconnected none
               { New ⟨[119, 115]⟩ with
                 OnConnected := true, OnDisconnected := true, Conn := some 0,
                 IsConnected := false }] } :=
  (C3_Close_effects (Connect DialResult.ok (World.fresh
      { New ⟨[119, 115]⟩ with OnConnected := true, OnDisconnected := true }))
    0 none rfl rfl).1

/-- C6 on a connected socket made by New: SendText "hi" with a write that
fails, and SendBinary [1, 2] with a write that succeeds. -/
theorem C6_SendText_SendBinary_witness :
    SendText ⟨[104, 105]⟩ (some ⟨⟨[99]⟩⟩)
        (Connect DialResult.ok (World.fresh (New ⟨[119, 115]⟩))) =
      Except.ok
        { Connect DialResult.ok (World.fresh (New ⟨[119, 115]⟩)) with
          trace := (Connect DialResult.ok (World.fresh (New ⟨[119, 115]⟩))).trace ++
            [Event.lockSend, Event.write 0 1 [104, 105] (some ⟨⟨[99]⟩⟩), Event.unlockSend]
          log := [LogLine.write ⟨⟨[99]⟩⟩] } ∧
    SendBinary [1, 2] (some ⟨⟨[99]⟩⟩)
        (Connect DialResult.ok (World.fresh (New ⟨[119, 115]⟩))) =
      Except.ok
        { Connect DialResult.ok (World.fresh (New ⟨[119, 115]⟩)) with
          trace := (Connect DialResult.ok (World.fresh (New ⟨[119, 115]⟩))).trace ++
            [Event.lockSend, Event.write 0 2 [1, 2] (some ⟨⟨[99]⟩⟩), Event.unlockSend]
          log := [LogLine.write ⟨⟨[99]⟩⟩] } :=
  C6_SendText_SendBinary (Connect DialResult.ok (World.fresh (New ⟨[119, 115]⟩)))
    0 ⟨[104, 105]⟩ [1, 2] (some ⟨⟨[99]⟩⟩) rfl rfl

/-- C7 as stated fails: a socket made by New with OnConnected registered is
connected with success and then the read loop meets a read failure; in the
state reached IsConnected is true although a read failure has occurred since
the most recent successful Connect. -/
theorem C7_invariant_counterexample :
    ∃ w, run [Step.connect DialResult.ok, Step.read ⟨-1, [], some ⟨⟨[101, 111, 102]⟩⟩⟩]
        (World.fresh { New ⟨[119, 115]⟩ with OnConnected := true }) = Except.ok w ∧
      w.socket.IsConnected = true ∧
      ¬ (∃ pre post,
          [Step.connect DialResult.ok, Step.read ⟨-1, [], some ⟨⟨[101, 111, 102]⟩⟩⟩] =
            pre ++ Step.connect DialResult.ok :: post ∧
          ∀ x ∈ post, x.isConnect = false ∧ x.isClose = false ∧ x.isReadFailure = false) := by
  refine ⟨_, rfl, by decide, ?_⟩
  rintro ⟨pre, post, heq, hall⟩
  cases pre with
  | nil =>
    simp only [List.nil_append, List.cons.injEq, true_and] at heq
    subst heq
    have := (hall _ (List.mem_singleton_self _)).2.2
    revert this
    decide
  | cons a rest =>
    cases rest with
    | nil => simp at heq
    | cons b rest2 => simp at heq

/-- C7 (amended): in every state reached from a socket made by New (with any
callbacks, options and headers assigned) by any sequence of Connect, SendText,
SendBinary and Close calls and inbound events, the transport handle is absent
as long as no Connect has succeeded, and IsConnected is true only if the most
recent Connect succeeded and, when OnDisconnected is registered, no Close call
and no close frame has occurred since.  A read of the read loop, failing or
not, does not change IsConnected, and it can take place whenever a read loop
is alive and the handle is present. -/
theorem C7_invariant (s : Socket) (ops : List Step) (w : World)
    (hconn : s.Conn = none) (hflag : s.IsConnected = false)
    (hrun : run ops (World.fresh s) = Except.ok w) :
    ((∀ st ∈ ops, st ≠ Step.connect DialResult.ok) → w.socket.Conn = none) ∧
    (w.socket.IsConnected = true →
      ∃ pre post, ops = pre ++ Step.connect DialResult.ok :: post ∧
        (∀ x ∈ post, x.isConnect = false) ∧
        (s.OnDisconnected = true → ∀ x ∈ post, x.isClose = false)) ∧
    (∀ r w1, step (Step.read r) w = Except.ok w1 →
      w1.socket.IsConnected = w.socket.IsConnected) ∧
    (∀ r, w.readLoops ≠ 0 → w.socket.Conn ≠ none →
      ∃ w1, step (Step.read r) w = Except.ok w1 ∧
        w1.socket.IsConnected = w.socket.IsConnected) := by
  refine ⟨(run_invariant s hconn hflag ops w hrun).2.2.1,
    (run_invariant s hconn hflag ops w hrun).2.2.2,
    fun r w1 h => step_read_flag r w w1 h, ?_⟩
  intro r hl hc
  have hmu : w.receiveMu = false :=
    run_receiveMu ops (World.fresh s) w hrun (by intro cs hcs; simp [World.fresh] at hcs)
  cases hcn : w.socket.Conn with
  | none => exact absurd hcn hc
  | some c =>
    obtain ⟨w1, h1⟩ := step_read_enabled r w c hl hcn hmu
    exact ⟨w1, h1, step_read_flag r w w1 h1⟩

/-- C7 (amended) on a socket made by New with OnConnected and OnDisconnected
registered: Connect fails, Connect succeeds, a text frame is sent; IsConnected
is true, the most recent Connect is the successful one, and a read failure
that follows leaves IsConnected true. -/
theorem C7_invariant_witness :
    ∃ w w1, run [Step.connect (DialResult.fail ⟨⟨[120]⟩⟩), Step.connect DialResult.ok,
          Step.sendText ⟨[104, 105]⟩ none]
        (World.fresh { New ⟨[119, 115]⟩ with OnConnected := true, OnDisconnected := true })
          = Except.ok w ∧
      w.socket.IsConnected = true ∧
      (∃ pre post,
        [Step.connect (DialResult.fail ⟨⟨[120]⟩⟩), Step.connect DialResult.ok,
          Step.sendText ⟨[104, 105]⟩ none] =
          pre ++ Step.connect DialResult.ok :: post ∧
        (∀ x ∈ post, x.isConnect = false) ∧
        (true = true → ∀ x ∈ post, x.isClose = false)) ∧
      step (Step.read ⟨-1, [], some ⟨⟨[101, 111, 102]⟩⟩⟩) w = Except.ok w1 ∧
      w1.socket.IsConnected = true :=
  ⟨_, _, rfl, by decide,
    (C7_invariant { New ⟨[119, 115]⟩ with OnConnected := true, OnDisconnected := true }
      [Step.connect (DialResult.fail ⟨⟨[120]⟩⟩), Step.connect DialResult.ok,
        Step.sendText ⟨[104, 105]⟩ none]
      _ rfl rfl rfl).2.1 (by decide),
    rfl,
    ((C7_invariant { New ⟨[119, 115]⟩ with OnConnected := true, OnDisconnected := true }
      [Step.connect (DialResult.fail ⟨⟨[120]⟩⟩), Step.connect DialResult.ok,
        Step.sendText ⟨[104, 105]⟩ none]
      _ rfl rfl rfl).2.2.1 ⟨-1, [], some ⟨⟨[101, 111, 102]⟩⟩⟩ _ rfl).trans (by decide)⟩

end gowebsocket
